import Mathlib

/-!
Shallow embedding of the `funnyboy-roks/jvm` repository: the `class-files`
crate (descriptor parser, class-file decoder, attribute resolver) and the
`jvm` crate (runtime values, heap arrays, opcode handlers, class
initialisation).  Definitions are translated from the Rust source; theorems
check the natural-language specification against them.

Conventions used throughout:
* Rust `Vec` operand/call stacks are modelled as Lean lists with the *top of
  the stack at the head* (Rust pushes and pops at the end of the `Vec`).
* Byte streams are `List Nat`, one entry per byte, consumed from the front.
* `i8`/`i16`/`i32`/`i64` values are carried as `Int`, `u8`/`u16`/`u32` as
  `Nat`; conversions that reinterpret bits are written out explicitly.
* `f32`/`f64` payloads are carried as raw big-endian bit patterns (`Nat`);
  no claim interprets floating-point values.
* Fallible Rust code returns `Option`/`Except`; a Rust panic
  (`unwrap`/`todo!`/index out of bounds/arithmetic overflow) is a distinct
  outcome from an `anyhow` error wherever a claim depends on the difference.
-/

namespace Jvm

/-! ## Descriptors (`class-files/src/descriptors.rs`) -/

/-- `FieldType` from `descriptors.rs`.  The Rust `ObjReference(String)`
payload is carried as the list of its characters. -/
inductive FieldType where
  | byte
  | char
  | double
  | float
  | int
  | long
  | objReference (name : List Char)
  | short
  | boolean
  | arrReference (inner : FieldType)
deriving DecidableEq

/-- The `'L'` arm of `FieldType::from_chars`: consume characters until the
terminating `';'`; running out of input is an error (`context("Invalid
format")`). -/
def readClassName : List Char → Option (List Char × List Char)
  | [] => none
  | c :: rest =>
    if c = ';' then some ([], rest)
    else (readClassName rest).map (fun p => (c :: p.1, p.2))

/-- `FieldType::from_chars` from `descriptors.rs`: single-character dispatch
on `id`, consuming further characters from `chars`; returns the parsed type
together with the unconsumed remainder of the stream. -/
def FieldType.from_chars (id : Char) (chars : List Char) :
    Option (FieldType × List Char) :=
  if id = 'B' then some (.byte, chars)
  else if id = 'C' then some (.char, chars)
  else if id = 'D' then some (.double, chars)
  else if id = 'F' then some (.float, chars)
  else if id = 'I' then some (.int, chars)
  else if id = 'J' then some (.long, chars)
  else if id = 'L' then (readClassName chars).map (fun p => (.objReference p.1, p.2))
  else if id = 'S' then some (.short, chars)
  else if id = 'Z' then some (.boolean, chars)
  else if id = '[' then
    match chars with
    | [] => none
    | c :: rest =>
      (FieldType.from_chars c rest).map (fun p => (.arrReference p.1, p.2))
  else none

/-- `FieldType::to_string` from `descriptors.rs`, producing the character
list of the serialised descriptor. -/
def FieldType.to_string : FieldType → List Char
  | .byte => ['B']
  | .char => ['C']
  | .double => ['D']
  | .float => ['F']
  | .int => ['I']
  | .long => ['J']
  | .objReference name => 'L' :: name ++ [';']
  | .short => ['S']
  | .boolean => ['Z']
  | .arrReference inner => '[' :: inner.to_string

/-- `ReturnDescriptor` from `descriptors.rs`. -/
inductive ReturnDescriptor where
  | fieldType (ft : Jvm.FieldType)
  | void
deriving DecidableEq

/-- `ReturnDescriptor::from_chars`. -/
def ReturnDescriptor.from_chars (id : Char) (chars : List Char) :
    Option (ReturnDescriptor × List Char) :=
  if id = 'V' then some (.void, chars)
  else (FieldType.from_chars id chars).map (fun p => (.fieldType p.1, p.2))

/-- `ReturnDescriptor::to_string`. -/
def ReturnDescriptor.to_string : ReturnDescriptor → List Char
  | .fieldType ft => ft.to_string
  | .void => ['V']

/-- `MethodDescriptor` from `descriptors.rs`. -/
structure MethodDescriptor where
  params : List FieldType
  return_value : ReturnDescriptor
deriving DecidableEq

/-- The parameter loop of `MethodDescriptor::from_str`: the stream starts at
the already-read identifier character (`id :: rest` here), parses field
types until the closing `')'`, and returns the remainder after the `')'`.
Running out of characters (`chars.next()` returning `None`) is an error.
The `fuel` argument drives the recursion; it is called with
`fuel = stream length`, and since every iteration consumes at least one
character, fuel can only run out on an empty stream — where the source
errors as well, so the two exits coincide. -/
def parseParamsF : Nat → List Char → Option (List FieldType × List Char)
  | 0, _ => none
  | _ + 1, [] => none
  | fuel + 1, id :: rest =>
    if id = ')' then some ([], rest)
    else
      match FieldType.from_chars id rest with
      | none => none
      | some (ft, rest') =>
        (parseParamsF fuel rest').map (fun p => (ft :: p.1, p.2))

/-- `MethodDescriptor::from_str` from `descriptors.rs`, kept together with
the remainder of the character stream it leaves unconsumed (the Rust
function drops that remainder on the floor, see `from_str` below): require
`'('`, run the parameter loop until `')'`, read one identifier and parse the
return descriptor. -/
def MethodDescriptor.parse (s : List Char) : Option (MethodDescriptor × List Char) :=
  match s with
  | [] => none
  | c :: rest =>
    if c = '(' then
      match rest with
      | [] => none
      | _ :: _ =>
        match parseParamsF rest.length rest with
        | none => none
        | some (params, afterParams) =>
          match afterParams with
          | [] => none
          | id :: rest2 =>
            (ReturnDescriptor.from_chars id rest2).map
              (fun p => ({ params := params, return_value := p.1 }, p.2))
    else none

/-- `MethodDescriptor::from_str`: the Rust function returns the descriptor
and ignores any characters left after the return descriptor. -/
def MethodDescriptor.from_str (s : List Char) : Option MethodDescriptor :=
  (MethodDescriptor.parse s).map Prod.fst

/-- `MethodDescriptor::to_string`. -/
def MethodDescriptor.to_string (md : MethodDescriptor) : List Char :=
  '(' :: (md.params.map FieldType.to_string).flatten ++ ')' :: md.return_value.to_string

/-! ## Big-endian byte readers (`class-files/src/bytes.rs`)

A byte stream is a `List Nat` (one entry per byte, big-endian order,
consumed from the front).  Every reader consumes exactly its width or fails
(`read_exact` error), mirroring the `ReadNum` trait. -/

def read_u8 : List Nat → Option (Nat × List Nat)
  | [] => none
  | b :: r => some (b, r)

def read_u16 (r : List Nat) : Option (Nat × List Nat) := do
  let (a, r) ← read_u8 r
  let (b, r) ← read_u8 r
  some (a * 256 + b, r)

def read_u32 (r : List Nat) : Option (Nat × List Nat) := do
  let (a, r) ← read_u16 r
  let (b, r) ← read_u16 r
  some (a * 65536 + b, r)

def read_u64 (r : List Nat) : Option (Nat × List Nat) := do
  let (a, r) ← read_u32 r
  let (b, r) ← read_u32 r
  some (a * 4294967296 + b, r)

/-- Reinterpret a `w`-bit unsigned value as the signed two's-complement
integer with the same bit pattern (`from_be_bytes` into a signed type). -/
def toSigned (w : Nat) (n : Nat) : Int :=
  if n < 2 ^ (w - 1) then (n : Int) else (n : Int) - 2 ^ w

def read_i32 (r : List Nat) : Option (Int × List Nat) :=
  (read_u32 r).map (fun p => (toSigned 32 p.1, p.2))

def read_i64 (r : List Nat) : Option (Int × List Nat) :=
  (read_u64 r).map (fun p => (toSigned 64 p.1, p.2))

/-- `read_exact` into a buffer of `n` bytes: take exactly `n` bytes or fail. -/
def readBytes : Nat → List Nat → Option (List Nat × List Nat)
  | 0, r => some ([], r)
  | _ + 1, [] => none
  | n + 1, b :: r => (readBytes n r).map (fun p => (b :: p.1, p.2))

/-- Run a one-element reader exactly `n` times, collecting the results (the
`read_vec!` macro of `lib.rs` and the `(0..count).map(...)` loops). -/
def readList {α : Type} : Nat → (List Nat → Option (α × List Nat)) →
    List Nat → Option (List α × List Nat)
  | 0, _, r => some ([], r)
  | n + 1, f, r => do
    let (a, r) ← f r
    let (l, r) ← readList n f r
    some (a :: l, r)

/-! ## Raw constants and raw class-file records
(`class-files/src/types/raw.rs`) -/

/-- `RawConstant` from `raw.rs`.  Float/Double payloads are kept as their
raw big-endian bit patterns; the `Class` variant is `classRef` and the
`String` variant `stringRef` to avoid clashing with the builtin types. -/
inductive RawConstant where
  | unused
  | classRef (name_index : Nat)
  | fieldRef (class_index name_and_type_index : Nat)
  | methodRef (class_index name_and_type_index : Nat)
  | interfaceMethodRef (class_index name_and_type_index : Nat)
  | stringRef (string_index : Nat)
  | integer (num : Int)
  | float (bits : Nat)
  | long (num : Int)
  | double (bits : Nat)
  | nameAndType (name_index descriptor_index : Nat)
  | utf8 (string : String)
  | methodHandle (reference_kind reference_index : Nat)
  | methodType (descriptor_index : Nat)
  | invokeDynamic (bootstrap_method_attr_index name_and_type_index : Nat)
deriving DecidableEq

/-- Modelled from the spec: the modified-CESU-8 decoder provided by the
external `cesu8` crate (`from_java_cesu8`), which is not part of this
repository.  Modified CESU-8 agrees byte-for-byte with ASCII on the range
0x01–0x7F, which is the only range this development exercises; payloads
containing any other byte are conservatively rejected. -/
def from_java_cesu8 (bytes : List Nat) : Option String :=
  if bytes.all (fun b => decide (0 < b ∧ b < 128)) then
    some (String.mk (bytes.map Char.ofNat))
  else none

/-- `RawConstant::read_from`: one tag byte, then the tag's payload; returns
the constant together with the `skip_next` flag (set exactly for Long and
Double, tags 5 and 6) and the unconsumed stream.  An unknown tag is an
error. -/
def RawConstant.read_from (r : List Nat) : Option (RawConstant × Bool × List Nat) := do
  let (tag, r) ← read_u8 r
  if tag = 7 then do
    let (ni, r) ← read_u16 r
    some (.classRef ni, false, r)
  else if tag = 9 then do
    let (ci, r) ← read_u16 r
    let (nti, r) ← read_u16 r
    some (.fieldRef ci nti, false, r)
  else if tag = 10 then do
    let (ci, r) ← read_u16 r
    let (nti, r) ← read_u16 r
    some (.methodRef ci nti, false, r)
  else if tag = 11 then do
    let (ci, r) ← read_u16 r
    let (nti, r) ← read_u16 r
    some (.interfaceMethodRef ci nti, false, r)
  else if tag = 8 then do
    let (si, r) ← read_u16 r
    some (.stringRef si, false, r)
  else if tag = 3 then do
    let (num, r) ← read_i32 r
    some (.integer num, false, r)
  else if tag = 4 then do
    let (bits, r) ← read_u32 r
    some (.float bits, false, r)
  else if tag = 5 then do
    let (num, r) ← read_i64 r
    some (.long num, true, r)
  else if tag = 6 then do
    let (bits, r) ← read_u64 r
    some (.double bits, true, r)
  else if tag = 12 then do
    let (ni, r) ← read_u16 r
    let (di, r) ← read_u16 r
    some (.nameAndType ni di, false, r)
  else if tag = 1 then do
    let (count, r) ← read_u16 r
    let (bytes, r) ← readBytes count r
    let s ← from_java_cesu8 bytes
    some (.utf8 s, false, r)
  else if tag = 15 then do
    let (rk, r) ← read_u8 r
    let (ri, r) ← read_u16 r
    some (.methodHandle rk ri, false, r)
  else if tag = 16 then do
    let (di, r) ← read_u16 r
    some (.methodType di, false, r)
  else if tag = 18 then do
    let (bi, r) ← read_u16 r
    let (nti, r) ← read_u16 r
    some (.invokeDynamic bi nti, false, r)
  else none

/-- `RawConstant::unwrap_utf8`: panics (`unreachable!`) on any non-Utf8
constant, modelled as `none`. -/
def RawConstant.unwrap_utf8 : RawConstant → Option String
  | .utf8 s => some s
  | _ => none

/-- Is this constant a Long or a Double (the two-slot entries)? -/
def RawConstant.isWide : RawConstant → Bool
  | .long _ => true
  | .double _ => true
  | _ => false

/-- `RawAttribute` from `raw.rs`: a name index and the opaque body bytes. -/
structure RawAttribute where
  attribute_name_index : Nat
  info : List Nat
deriving DecidableEq

/-- `RawAttribute::read_from`: u16 name index, u32 length, then exactly
`length` body bytes. -/
def RawAttribute.read_from (r : List Nat) : Option (RawAttribute × List Nat) := do
  let (ni, r) ← read_u16 r
  let (len, r) ← read_u32 r
  let (info, r) ← readBytes len r
  some ({ attribute_name_index := ni, info := info }, r)

/-- Modelled from the spec: the `FieldAccessFlags` bitflags type lives in
the `class_files::types` module, whose source file is not under `src/`;
these are the standard class-file field flags (PUBLIC, PRIVATE, PROTECTED,
STATIC, FINAL, VOLATILE, TRANSIENT, SYNTHETIC, ENUM) that `from_bits`
validates against. -/
def fieldFlagsMask : Nat := 0x0001 + 0x0002 + 0x0004 + 0x0008 + 0x0010 + 0x0040 + 0x0080 + 0x1000 + 0x4000

/-- Modelled from the spec: the `MethodAccessFlags` mask (PUBLIC, PRIVATE,
PROTECTED, STATIC, FINAL, SYNCHRONIZED, BRIDGE, VARARGS, NATIVE, ABSTRACT,
STRICT, SYNTHETIC), from the `class_files::types` module not under `src/`. -/
def methodFlagsMask : Nat := 0x0001 + 0x0002 + 0x0004 + 0x0008 + 0x0010 + 0x0020 + 0x0040 + 0x0080 + 0x0100 + 0x0400 + 0x0800 + 0x1000

/-- Modelled from the spec: the `NestedClassAccessFlags` mask (PUBLIC,
PRIVATE, PROTECTED, STATIC, FINAL, INTERFACE, ABSTRACT, SYNTHETIC,
ANNOTATION, ENUM), from the `class_files::types` module not under `src/`. -/
def nestedClassFlagsMask : Nat := 0x0001 + 0x0002 + 0x0004 + 0x0008 + 0x0010 + 0x0200 + 0x0400 + 0x1000 + 0x2000 + 0x4000

/-- `bitflags::from_bits`: accept the raw value only when it has no bits
outside the mask. -/
def fromBitsChecked (mask flags : Nat) : Option Nat :=
  if flags &&& mask = flags then some flags else none

/-- `RawField` from `raw.rs`. -/
structure RawField where
  access_flags : Nat
  name_index : Nat
  descriptor_index : Nat
  attributes : List RawAttribute
deriving DecidableEq

/-- `RawField::read_from`: flags (validated with `FieldAccessFlags::from_bits`,
rejecting unknown bits), name and descriptor indices, then the attribute
list. -/
def RawField.read_from (r : List Nat) : Option (RawField × List Nat) := do
  let (rawFlags, r) ← read_u16 r
  let flags ← fromBitsChecked fieldFlagsMask rawFlags
  let (ni, r) ← read_u16 r
  let (di, r) ← read_u16 r
  let (ac, r) ← read_u16 r
  let (attrs, r) ← readList ac RawAttribute.read_from r
  some ({ access_flags := flags, name_index := ni, descriptor_index := di,
          attributes := attrs }, r)

/-- `RawMethod` from `raw.rs`. -/
structure RawMethod where
  access_flags : Nat
  name_index : Nat
  descriptor_index : Nat
  attributes : List RawAttribute
deriving DecidableEq

/-- `RawMethod::read_from`: same layout as `RawField`, validated against the
method flag mask. -/
def RawMethod.read_from (r : List Nat) : Option (RawMethod × List Nat) := do
  let (rawFlags, r) ← read_u16 r
  let flags ← fromBitsChecked methodFlagsMask rawFlags
  let (ni, r) ← read_u16 r
  let (di, r) ← read_u16 r
  let (ac, r) ← read_u16 r
  let (attrs, r) ← readList ac RawAttribute.read_from r
  some ({ access_flags := flags, name_index := ni, descriptor_index := di,
          attributes := attrs }, r)

/-! ## The class-file decoder (`class-files/src/lib.rs`) -/

/-- The constant-pool loop of `ClassFile::read_from`
(`let mut i = 1; while i < constant_pool_count { ... }`), phrased on the
remaining iteration budget `rem = constant_pool_count - i` so that the
recursion is structural.  A Long/Double entry (`skip_next`) advances `i` by
2 and pushes the `Unused` sentinel after itself; when it occurs with only
one slot left (`rem = 1`, i.e. `i = constant_pool_count - 1`), `i` jumps
past `constant_pool_count` and the loop exits with both entries pushed. -/
def readConstants : Nat → List Nat → Option (List RawConstant × List Nat)
  | 0, r => some ([], r)
  | rem + 1, r => do
    let (c, skipNext, r) ← RawConstant.read_from r
    if skipNext then
      match rem with
      | 0 => some ([c, .unused], r)
      | rem' + 1 =>
        (readConstants rem' r).map (fun p => (c :: .unused :: p.1, p.2))
    else
      (readConstants rem r).map (fun p => (c :: p.1, p.2))

/-- `ClassFile` from `lib.rs`.  `version` is `(major, minor)` as stored by
the source; `access_flags` keeps the raw `from_bits_retain` bits. -/
structure ClassFile where
  version : Nat × Nat
  constant_pool : List RawConstant
  access_flags : Nat
  this_class : Nat
  super_class : Nat
  interfaces : List Nat
  fields : List RawField
  methods : List RawMethod
  attributes : List RawAttribute
deriving DecidableEq

/-- `ClassFile::read_from`: magic, minor then major version, the
constant-pool loop, retained access flags, `this`/`super` indices, the
interface index list, fields, methods, class attributes, and finally the
requirement that the stream is exhausted.  A `constant_pool_count` of zero
makes the source's `reserve_exact(count - 1)` underflow and panic, modelled
as `none`. -/
def ClassFile.read_from (r0 : List Nat) : Option ClassFile :=
  match read_u32 r0 with
  | none => none
  | some (magic, r1) =>
  if magic ≠ 0xcafebabe then none else
  match read_u16 r1 with
  | none => none
  | some (minor_version, r2) =>
  match read_u16 r2 with
  | none => none
  | some (major_version, r3) =>
  match read_u16 r3 with
  | none => none
  | some (constant_pool_count, r4) =>
  if constant_pool_count = 0 then none else
  match readConstants (constant_pool_count - 1) r4 with
  | none => none
  | some (constant_pool, r5) =>
  match read_u16 r5 with
  | none => none
  | some (access_flags, r6) =>
  match read_u16 r6 with
  | none => none
  | some (this_class, r7) =>
  match read_u16 r7 with
  | none => none
  | some (super_class, r8) =>
  match read_u16 r8 with
  | none => none
  | some (ifCount, r9) =>
  match readList ifCount read_u16 r9 with
  | none => none
  | some (interfaces, r10) =>
  match read_u16 r10 with
  | none => none
  | some (fieldCount, r11) =>
  match readList fieldCount RawField.read_from r11 with
  | none => none
  | some (fields, r12) =>
  match read_u16 r12 with
  | none => none
  | some (methodCount, r13) =>
  match readList methodCount RawMethod.read_from r13 with
  | none => none
  | some (methods, r14) =>
  match read_u16 r14 with
  | none => none
  | some (attrCount, r15) =>
  match readList attrCount RawAttribute.read_from r15 with
  | none => none
  | some (attributes, r16) =>
  if r16 = [] then
    some { version := (major_version, minor_version),
           constant_pool := constant_pool,
           access_flags := access_flags,
           this_class := this_class,
           super_class := super_class,
           interfaces := interfaces,
           fields := fields,
           methods := methods,
           attributes := attributes }
  else none

/-- The ubiquitous `constant_pool[idx - 1]` pattern (1-origin wire index
into the zero-origin pool).  `idx = 0` underflows the `usize` subtraction
and an out-of-range result panics; both are `none`. -/
def poolAt1 (pool : List RawConstant) (idx : Nat) : Option RawConstant :=
  if idx = 0 then none else pool[idx - 1]?

/-- `ClassFile::this_class()`: look up `constant_pool[self.this_class - 1]`,
require a `Class` constant, and return the Utf8 name it references (both
lookups 1-origin adjusted). -/
def ClassFile.this_class_name (cf : ClassFile) : Option String := do
  let c ← poolAt1 cf.constant_pool cf.this_class
  match c with
  | .classRef name_index => do
    let n ← poolAt1 cf.constant_pool name_index
    n.unwrap_utf8
  | _ => none

/-- `ClassFile::super_class()`: same shape as `this_class()` (the source
phrases the deref differently but performs the same two adjusted lookups). -/
def ClassFile.super_class_name (cf : ClassFile) : Option String := do
  let c ← poolAt1 cf.constant_pool cf.super_class
  match c with
  | .classRef name_index => do
    let n ← poolAt1 cf.constant_pool name_index
    n.unwrap_utf8
  | _ => none

/-- `ClassFile::interfaces()`: maps every stored interface index `n`
through `&self.constant_pool[*n]` — the wire index is used directly as a
zero-origin position, with no `- 1` adjustment (an out-of-range index
panics, modelled as `none`). -/
def ClassFile.interfacesView (cf : ClassFile) : Option (List RawConstant) :=
  cf.interfaces.mapM (fun n => cf.constant_pool[n]?)

/-! ## Resolved views (`class-files/src/types/resolved.rs`) -/

/-- `Exception` (an exception-table entry) from `resolved.rs`. -/
structure ExceptionEntry where
  start_pc : Nat
  end_pc : Nat
  handler_pc : Nat
  catch_type : Nat
deriving DecidableEq

/-- `InnerClassInfo` from `resolved.rs`. -/
structure InnerClassInfo where
  inner_class_info : RawConstant
  outer_class_info : RawConstant
  inner_name : String
  inner_class_access_flags : Nat
deriving DecidableEq

/-- `LineNumber` from `resolved.rs`. -/
structure LineNumber where
  start_pc : Nat
  line_number : Nat
deriving DecidableEq

/-- `LocalVariable` from `resolved.rs`. -/
structure LocalVariable where
  start_pc : Nat
  length : Nat
  name : String
  descriptor : String
  index : Nat
deriving DecidableEq

/-- `LocalVariableType` from `resolved.rs`. -/
structure LocalVariableType where
  start_pc : Nat
  length : Nat
  name : String
  signature : String
  index : Nat
deriving DecidableEq

/-- `BootstrapMethod` from `resolved.rs`. -/
structure BootstrapMethod where
  method_ref : RawConstant
  arguments : List RawConstant
deriving DecidableEq

/-- `Attribute` from `resolved.rs`.  The four annotation variants are
abbreviated (`runtimeVisibleAnn` etc.); they carry no payload in the
source either. -/
inductive Attribute where
  | constantValue (value : RawConstant)
  | code (max_stack max_locals : Nat) (codeBytes : List Nat)
      (exception_table : List ExceptionEntry) (attributes : List RawAttribute)
  | stackMapTable
  | exceptions (exception_index_table : List Nat)
  | innerClasses (classes : List InnerClassInfo)
  | enclosingMethod (classInfo method_index : RawConstant)
  | synthetic
  | signature (sig : RawConstant)
  | sourceFile (sourcefile : String)
  | sourceDebugExtension (debug_extension : List Nat)
  | lineNumberTable (table : List LineNumber)
  | localVariableTable (table : List LocalVariable)
  | localVariableTypeTable (table : List LocalVariableType)
  | deprecated
  | runtimeVisibleAnn
  | runtimeInvisibleAnn
  | runtimeVisibleParamAnn
  | runtimeInvisibleParamAnn
  | annDefault
  | bootstrapMethods (methods : List BootstrapMethod)
  | other (name : String) (info : List Nat)
deriving DecidableEq

/-- One exception-table entry of the `Code` attribute body. -/
def readExceptionEntry (r : List Nat) : Option (ExceptionEntry × List Nat) := do
  let (sp, r) ← read_u16 r
  let (ep, r) ← read_u16 r
  let (hp, r) ← read_u16 r
  let (ct, r) ← read_u16 r
  some ({ start_pc := sp, end_pc := ep, handler_pc := hp, catch_type := ct }, r)

/-- One `InnerClasses` entry: three 1-origin-adjusted pool lookups plus the
nested-class flag validation (an invalid flag set panics). -/
def readInnerClassInfo (const_pool : List RawConstant) (r : List Nat) :
    Option (InnerClassInfo × List Nat) := do
  let (ii, r) ← read_u16 r
  let inner ← poolAt1 const_pool ii
  let (oi, r) ← read_u16 r
  let outer ← poolAt1 const_pool oi
  let (nmi, r) ← read_u16 r
  let nmc ← poolAt1 const_pool nmi
  let nm ← nmc.unwrap_utf8
  let (fl, r) ← read_u16 r
  let flags ← fromBitsChecked nestedClassFlagsMask fl
  some ({ inner_class_info := inner, outer_class_info := outer,
          inner_name := nm, inner_class_access_flags := flags }, r)

/-- One `LineNumberTable` entry. -/
def readLineNumber (r : List Nat) : Option (LineNumber × List Nat) := do
  let (sp, r) ← read_u16 r
  let (ln, r) ← read_u16 r
  some ({ start_pc := sp, line_number := ln }, r)

/-- One `LocalVariableTable` entry (two adjusted pool lookups for name and
descriptor). -/
def readLocalVariable (const_pool : List RawConstant) (r : List Nat) :
    Option (LocalVariable × List Nat) := do
  let (sp, r) ← read_u16 r
  let (len, r) ← read_u16 r
  let (ni, r) ← read_u16 r
  let nc ← poolAt1 const_pool ni
  let nm ← nc.unwrap_utf8
  let (di, r) ← read_u16 r
  let dc ← poolAt1 const_pool di
  let ds ← dc.unwrap_utf8
  let (ix, r) ← read_u16 r
  some ({ start_pc := sp, length := len, name := nm, descriptor := ds, index := ix }, r)

/-- One `LocalVariableTypeTable` entry. -/
def readLocalVariableType (const_pool : List RawConstant) (r : List Nat) :
    Option (LocalVariableType × List Nat) := do
  let (sp, r) ← read_u16 r
  let (len, r) ← read_u16 r
  let (ni, r) ← read_u16 r
  let nc ← poolAt1 const_pool ni
  let nm ← nc.unwrap_utf8
  let (si, r) ← read_u16 r
  let sc ← poolAt1 const_pool si
  let sg ← sc.unwrap_utf8
  let (ix, r) ← read_u16 r
  some ({ start_pc := sp, length := len, name := nm, signature := sg, index := ix }, r)

/-- One `BootstrapMethods` entry: an adjusted pool lookup for the method
ref, then the argument count and that many adjusted pool lookups. -/
def readBootstrapMethod (const_pool : List RawConstant) (r : List Nat) :
    Option (BootstrapMethod × List Nat) := do
  let (mi, r) ← read_u16 r
  let mc ← poolAt1 const_pool mi
  let (na, r) ← read_u16 r
  let (args, r) ← readList na
    (fun r => do
      let (ai, r) ← read_u16 r
      let ac ← poolAt1 const_pool ai
      some (ac, r)) r
  some ({ method_ref := mc, arguments := args }, r)

/-- `Attribute::from_raw` from `resolved.rs`: resolve the attribute's name
through the (1-origin-adjusted) pool, then decode the body from
`raw.info`.  All the source's `unwrap`s/panics are `none`.  Note the
`ConstantValue` arm: the source indexes `const_pool[read_u16()]` with the
raw wire index, without the `- 1` adjustment every other arm performs. -/
def Attribute.from_raw (raw : RawAttribute) (const_pool : List RawConstant) :
    Option Attribute := do
  let nameC ← poolAt1 const_pool raw.attribute_name_index
  let name ← nameC.unwrap_utf8
  match name with
  | "ConstantValue" => do
    let (idx, _) ← read_u16 raw.info
    let v ← const_pool[idx]?
    some (.constantValue v)
  | "Code" => do
    let (max_stack, r) ← read_u16 raw.info
    let (max_locals, r) ← read_u16 r
    let (code_length, r) ← read_u32 r
    let (codeBytes, r) ← readBytes code_length r
    let (etLen, r) ← read_u16 r
    let (exception_table, r) ← readList etLen readExceptionEntry r
    let (acount, r) ← read_u16 r
    let (attributes, _) ← readList acount RawAttribute.read_from r
    some (.code max_stack max_locals codeBytes exception_table attributes)
  | "StackMapTable" => some .stackMapTable
  | "Exceptions" => do
    let (n, r) ← read_u16 raw.info
    let (tbl, _) ← readList n read_u16 r
    some (.exceptions tbl)
  | "InnerClasses" => do
    let (n, r) ← read_u16 raw.info
    let (classes, _) ← readList n (readInnerClassInfo const_pool) r
    some (.innerClasses classes)
  | "EnclosingMethod" => do
    let (ci, r) ← read_u16 raw.info
    let cc ← poolAt1 const_pool ci
    let (mi, _) ← read_u16 r
    let mc ← poolAt1 const_pool mi
    some (.enclosingMethod cc mc)
  | "Synthetic" => some .synthetic
  | "Signature" => do
    let (si, _) ← read_u16 raw.info
    let sc ← poolAt1 const_pool si
    some (.signature sc)
  | "SourceFile" => do
    let (si, _) ← read_u16 raw.info
    let sc ← poolAt1 const_pool si
    let s ← sc.unwrap_utf8
    some (.sourceFile s)
  | "SourceDebugExtension" => some (.sourceDebugExtension raw.info)
  | "LineNumberTable" => do
    let (n, r) ← read_u16 raw.info
    let (tbl, _) ← readList n readLineNumber r
    some (.lineNumberTable tbl)
  | "LocalVariableTable" => do
    let (n, r) ← read_u16 raw.info
    let (tbl, _) ← readList n (readLocalVariable const_pool) r
    some (.localVariableTable tbl)
  | "LocalVariableTypeTable" => do
    let (n, r) ← read_u16 raw.info
    let (tbl, _) ← readList n (readLocalVariableType const_pool) r
    some (.localVariableTypeTable tbl)
  | "Deprecated" => some .deprecated
  | "RuntimeVisibleAnnotations" => some .runtimeVisibleAnn
  | "RuntimeInvisibleAnnotations" => some .runtimeInvisibleAnn
  | "RuntimeVisibleParameterAnnotations" => some .runtimeVisibleParamAnn
  | "RuntimeInvisibleParameterAnnotations" => some .runtimeInvisibleParamAnn
  | "AnnotationDefault" => some .annDefault
  | "BootstrapMethods" => do
    let (n, r) ← read_u16 raw.info
    let (ms, _) ← readList n (readBootstrapMethod const_pool) r
    some (.bootstrapMethods ms)
  | a => some (.other a raw.info)

/-- `Method` (resolved view) from `resolved.rs`; the borrowed pool is not
duplicated into the record here. -/
structure Method where
  access_flags : Nat
  name : String
  descriptor : String
  attributes : List RawAttribute
deriving DecidableEq

/-- `Method::from_raw`: resolve the name and descriptor Utf8 entries with
the 1-origin adjustment. -/
def Method.from_raw (raw : RawMethod) (constant_pool : List RawConstant) :
    Option Method := do
  let nc ← poolAt1 constant_pool raw.name_index
  let nm ← nc.unwrap_utf8
  let dc ← poolAt1 constant_pool raw.descriptor_index
  let ds ← dc.unwrap_utf8
  some { access_flags := raw.access_flags, name := nm, descriptor := ds,
         attributes := raw.attributes }

/-- `Field` (resolved view) and `Field::from_raw` from `resolved.rs`. -/
structure Field where
  access_flags : Nat
  name : String
  descriptor : String
  attributes : List RawAttribute
deriving DecidableEq

/-- `Field::from_raw`: identical 1-origin-adjusted lookups. -/
def Field.from_raw (raw : RawField) (const_pool : List RawConstant) :
    Option Field := do
  let nc ← poolAt1 const_pool raw.name_index
  let nm ← nc.unwrap_utf8
  let dc ← poolAt1 const_pool raw.descriptor_index
  let ds ← dc.unwrap_utf8
  some { access_flags := raw.access_flags, name := nm, descriptor := ds,
         attributes := raw.attributes }

/-! ## Runtime values and frames (`jvm/src/types.rs`) -/

/-- `DataType` from `jvm/src/types.rs`.  Signed machine integers are
carried as `Int`, `Char` (u16) as `Nat`, float payloads as raw bit
patterns, heap references as `Nat` indices. -/
inductive DataType where
  | boolean (b : Bool)
  | byte (v : Int)
  | char (v : Nat)
  | short (v : Int)
  | int (v : Int)
  | float (bits : Nat)
  | long (v : Int)
  | double (bits : Nat)
  | classReference (i : Nat)
  | arrayReference (i : Nat)
  | interfaceReference (i : Nat)
  | returnAddr (pc : Nat)
  | null
  | empty
deriving DecidableEq

/-- `StackFrame` from `jvm/src/types.rs`.  The operand stack is a list with
the top of the stack at the head (the Rust `Vec` pushes and pops at its
end). -/
structure StackFrame where
  /-- the source field is named `variables`, a reserved word in Lean -/
  locals : List DataType
  op_stack : List DataType
  pc : Nat
deriving DecidableEq

/-- `StackFrame::new` / the frame built by `StackFrame::for_method` from
the method's Code attribute: `max_locals` locals initialised to `Empty`,
an empty operand stack, `pc = 0` (the `max_stack` capacity reservation has
no observable effect). -/
def StackFrame.for_method (max_locals : Nat) : StackFrame :=
  { locals := List.replicate max_locals .empty, op_stack := [], pc := 0 }

/-! ## Heap arrays (`jvm/src/main.rs`) -/

/-- `Array` from `jvm/src/main.rs`: one homogeneous buffer per element
type.  Element representations follow the `java` type aliases: Boolean as
`Bool`, Byte/Short/Int/Long as `Int`, Char as `Nat`, Float/Double as raw
bit patterns. -/
inductive Array where
  | boolean (a : List Bool)
  | char (a : List Nat)
  | float (a : List Nat)
  | double (a : List Nat)
  | byte (a : List Int)
  | short (a : List Int)
  | int (a : List Int)
  | long (a : List Int)
deriving DecidableEq

/-- Outcome of `Array::set`: success, an `anyhow` type-mismatch error
(`bail!`), or a Rust panic (slice index out of bounds). -/
inductive SetResult where
  | ok (a : Jvm.Array)
  | err (msg : String)
  | panicked
deriving DecidableEq

/-- Reinterpret the low byte of an i32 (`(b & 0xff) as java::Byte`).  On a
two's-complement i32, `b & 0xff` is `b.emod 256`; the `as i8` cast then
subtracts 256 from values ≥ 128. -/
def asI8 (x : Int) : Int :=
  if x < 128 then x else x - 256

/-- `Array::set` from `jvm/src/main.rs`: Boolean arrays accept `Boolean`
values directly and coerce `Int` values to their low bit (`b & 1 != 0`,
i.e. `b.emod 2 ≠ 0` on two's complement); Byte arrays accept `Byte` values
directly and coerce `Int` values through `(b & 0xff) as i8`; every other
array type requires exactly its matching variant (the `f!` macro); all
remaining combinations `bail!`.  The element write `a[index] = v` panics
when `index` is out of bounds; the bail happens before any write. -/
def Array.set (self : Jvm.Array) (index : Nat) (value : DataType) : SetResult :=
  match self with
  | .boolean a =>
    match value with
    | .boolean b =>
      if index < a.length then .ok (.boolean (a.set index b)) else .panicked
    | .int b =>
      if index < a.length then .ok (.boolean (a.set index (b % 2 != 0))) else .panicked
    | _ => .err "type mismatch for Boolean"
  | .byte a =>
    match value with
    | .byte b =>
      if index < a.length then .ok (.byte (a.set index b)) else .panicked
    | .int b =>
      if index < a.length then .ok (.byte (a.set index (asI8 (b % 256)))) else .panicked
    | _ => .err "type mismatch for Byte"
  | .char a =>
    match value with
    | .char b =>
      if index < a.length then .ok (.char (a.set index b)) else .panicked
    | _ => .err "type mismatch for Char"
  | .float a =>
    match value with
    | .float b =>
      if index < a.length then .ok (.float (a.set index b)) else .panicked
    | _ => .err "type mismatch for Float"
  | .double a =>
    match value with
    | .double b =>
      if index < a.length then .ok (.double (a.set index b)) else .panicked
    | _ => .err "type mismatch for Double"
  | .short a =>
    match value with
    | .short b =>
      if index < a.length then .ok (.short (a.set index b)) else .panicked
    | _ => .err "type mismatch for Short"
  | .int a =>
    match value with
    | .int b =>
      if index < a.length then .ok (.int (a.set index b)) else .panicked
    | _ => .err "type mismatch for Int"
  | .long a =>
    match value with
    | .long b =>
      if index < a.length then .ok (.long (a.set index b)) else .panicked
    | _ => .err "type mismatch for Long"

/-- `HeapItem` from `jvm/src/main.rs` (the `Object`/`Primitive` variants
carry no data yet in the source). -/
inductive HeapItem where
  | object
  | primitive
  | array (a : Jvm.Array)
  | null
  | empty
deriving DecidableEq

/-- The interpreter state the opcode handlers touch: the frame stack (top
of stack at the head — `run_code` always passes
`stack_frame = stack.len() - 1`) and the heap cells.  The class table only
participates in symbolic resolution, which the handlers below are
parametrised over. -/
structure JvmState where
  stack : List StackFrame
  heap : List HeapItem
deriving DecidableEq

/-- Outcome of one opcode handler: a new state (`return Ok(())`), an
`anyhow` error (`bail!` / a failing `?`), or a Rust panic
(`unwrap`/`todo!`/arithmetic failure). -/
inductive ExecR where
  | ok (s : JvmState)
  | err (msg : String)
  | panicked (msg : String)
deriving DecidableEq

/-! ## Opcode handlers (`jvm/src/op_code.rs`, `handle_op_code`)

Each definition is one arm of the `match instruction` in
`handle_op_code`, acting on the current (top) frame. -/

/-- The `0x57` (`pop`) arm: `stack_frame.op_stack.pop();` — `Vec::pop`
returns `None` on an empty stack without failing, and the result is
discarded, so the arm always succeeds. -/
def op_pop (jvm : JvmState) : ExecR :=
  match jvm.stack with
  | [] => .panicked "frame index out of bounds"
  | f :: rest => .ok { jvm with stack := { f with op_stack := f.op_stack.tail } :: rest }

/-- The `0x59` (`dup`) arm: pop the top (`context("No value on stack")?`
— an error when empty) and push it back twice. -/
def op_dup (jvm : JvmState) : ExecR :=
  match jvm.stack with
  | [] => .panicked "frame index out of bounds"
  | f :: rest =>
    match f.op_stack with
    | [] => .err "No value on stack"
    | top :: os => .ok { jvm with stack := { f with op_stack := top :: top :: os } :: rest }

/-- The `0x10` (`bipush`) arm: read one byte with `read_u8` (an unsigned
read) and push `DataType::Int(byte.into())` — the `u8 → i32` conversion
zero-extends the byte. -/
def op_bipush (jvm : JvmState) (code : List Nat) : ExecR :=
  match jvm.stack with
  | [] => .panicked "frame index out of bounds"
  | f :: rest =>
    match read_u8 code with
    | none => .err "end of code stream"
    | some (byte, _) =>
      .ok { jvm with stack := { f with op_stack := .int (byte : Int) :: f.op_stack } :: rest }

/-- The `0x6c` (`idiv`) arm: pop `a` (the top of stack), pop `b`, and push
`Int(a / b)` — note the order: the popped-first operand is the dividend.
Either pop yielding a non-`Int` is `bail!("Invalid stack args")`.  The
division is the native Rust `i32` division: it truncates toward zero and
panics on a zero divisor or on `i32::MIN / -1`. -/
def op_idiv (jvm : JvmState) : ExecR :=
  match jvm.stack with
  | [] => .panicked "frame index out of bounds"
  | f :: rest =>
    match f.op_stack with
    | .int a :: .int b :: os =>
      if b = 0 then .panicked "attempt to divide by zero"
      else if a = -2147483648 ∧ b = -1 then .panicked "attempt to divide with overflow"
      else .ok { jvm with stack := { f with op_stack := .int (Int.tdiv a b) :: os } :: rest }
    | _ => .err "Invalid stack args"

/-- The `0xac` (`ireturn`) arm: pop the return value from the current frame
(`op_stack.pop().unwrap()` — panic when empty), pop the frame itself, and
push the value onto the new top frame
(`jvm.stack.last_mut().unwrap().op_stack.push(...)` — panic when the
returned-from frame was the only one). -/
def op_ireturn (jvm : JvmState) : ExecR :=
  match jvm.stack with
  | [] => .panicked "frame index out of bounds"
  | f :: rest =>
    match f.op_stack with
    | [] => .panicked "pop on empty operand stack"
    | v :: _ =>
      match rest with
      | [] => .panicked "no caller frame"
      | caller :: below =>
        .ok { jvm with stack := { caller with op_stack := v :: caller.op_stack } :: below }

/-- The `0xb1` (`return`) arm: pop the current frame, no value transferred. -/
def op_return (jvm : JvmState) : ExecR :=
  match jvm.stack with
  | [] => .panicked "frame index out of bounds"
  | _ :: rest => .ok { jvm with stack := rest }

/-- Rust `variables[i] = v`: the index assignment panics (here `none`) when
`i` is out of bounds. -/
def setVariable (vars : List DataType) (i : Nat) (v : DataType) : Option (List DataType) :=
  if i < vars.length then some (vars.set i v) else none

/-- The argument-transfer loop of the `0xb8` (`invokestatic`) arm
(op_code.rs: `for i in 0..md.params.len() { let v = pop().context("")?;
new_stack_frame.variables[md.params.len() - i - 1] = v; }`), phrased on the
remaining iteration count `rem = k - i`, so the slot written at each step
is `rem - 1`.  An exhausted operand stack is an error. -/
def invokestatic_loop : Nat → StackFrame → StackFrame → Option (StackFrame × StackFrame)
  | 0, caller, nf => some (caller, nf)
  | rem + 1, caller, nf =>
    match caller.op_stack with
    | [] => none
    | v :: os =>
      match setVariable nf.locals rem v with
      | none => none
      | some vars =>
        invokestatic_loop rem { caller with op_stack := os } { nf with locals := vars }

/-- The non-native tail of the `0xb8` (`invokestatic`) arm, after the
constant-pool walk has resolved the target method and its parsed descriptor
(`num_params = md.params.len()`) and Code attribute (`max_locals`): build
the fresh frame with `StackFrame::for_method`, pop the arguments into its
locals, push it, and continue execution in it (`jvm.run_code` drives the
new top frame). -/
def invokestatic_nonnative (jvm : JvmState) (num_params max_locals : Nat) :
    Option JvmState :=
  match jvm.stack with
  | [] => none
  | caller :: below =>
    match invokestatic_loop num_params caller (StackFrame.for_method max_locals) with
    | none => none
    | some (caller', nf) => some { jvm with stack := nf :: caller' :: below }

/-! ## Class initialisation (`jvm/src/main.rs`, `Jvm::init_class`)

`init_class` looks the class up (error when absent), returns `Ok(false)`
when its `initialised` flag is already set, otherwise finds `<clinit>`
(error when absent), runs it via `run_method`, and only *after*
`run_method` returns sets the flag and returns `Ok(true)`.

Running the `<clinit>` bytecode is abstracted to the sequence of nested
`init_class` calls that its execution performs (the `getstatic` arm of
`handle_op_code` calls `jvm.init_class(&class_name)?`, and every error
propagates outward through `run_code`); the class table those nested calls
observe is the table *before* the flag assignment, exactly as in the
source.  `fuel` bounds the recursion depth; `none` marks exhaustion, i.e.
divergence of the source's unbounded recursion. -/

/-- One class-table entry: the `initialised` flag plus the abstraction of
its `<clinit>` body (whether `find_init_method` succeeds, and which classes
the body initialises, in order). -/
structure ClassRec where
  initialised : Bool
  hasClinit : Bool
  clinitInits : List String
deriving DecidableEq

/-- Set the `initialised` flag of one class
(`self.classes.get_mut(class_name).unwrap().initialised = true`). -/
def setInitialised (classes : List (String × ClassRec)) (name : String) :
    List (String × ClassRec) :=
  classes.map (fun p => if p.1 = name then (p.1, { p.2 with initialised := true }) else p)

mutual

/-- `Jvm::init_class` (main.rs lines 442–457), abstracted as described
above.  Result: `none` = fuel exhausted (the source recurses without
bound); `some (.error _)` = an `anyhow` error; `some (.ok (b, classes))` =
`Ok(b)` with the updated class table. -/
def init_class : Nat → List (String × ClassRec) → String →
    Option (Except String (Bool × List (String × ClassRec)))
  | 0, _, _ => none
  | fuel + 1, classes, name =>
    match List.lookup name classes with
    | none => some (.error "class not found")
    | some c =>
      if c.initialised then some (.ok (false, classes))
      else if c.hasClinit then
        match run_clinit fuel classes c.clinitInits with
        | none => none
        | some (.error e) => some (.error e)
        | some (.ok classes') => some (.ok (true, setInitialised classes' name))
      else some (.error "no <clinit> method")

/-- The nested `init_class` calls performed while a `<clinit>` body runs,
in program order, threading the class table through. -/
def run_clinit : Nat → List (String × ClassRec) → List String →
    Option (Except String (List (String × ClassRec)))
  | _, classes, [] => some (.ok classes)
  | fuel, classes, n :: ns =>
    match init_class fuel classes n with
    | none => none
    | some (.error e) => some (.error e)
    | some (.ok (_, classes')) => run_clinit fuel classes' ns

end

/-! ## Statement-level definitions -/

/-- A constant-pool suffix of the form `… ++ [Long/Double, Unused]`: the
shape the pool takes when a two-slot constant is decoded at the final wire
slot. -/
def endsWidePair (l : List RawConstant) : Prop :=
  ∃ l₀ w, w.isWide = true ∧ l = l₀ ++ [w, RawConstant.unused]

/-- The value/element combinations `Array::set` stores, as the
specification describes them: the two `Int` coercions (into Boolean and
Byte arrays) plus the exact-variant matches — including Boolean-into-Boolean
and Byte-into-Byte.  Used to state the amended C9 claim. -/
def writeCompatible : Jvm.Array → DataType → Bool
  | .boolean _, .boolean _ => true
  | .boolean _, .int _ => true
  | .byte _, .byte _ => true
  | .byte _, .int _ => true
  | .char _, .char _ => true
  | .float _, .float _ => true
  | .double _, .double _ => true
  | .short _, .short _ => true
  | .int _, .int _ => true
  | .long _, .long _ => true
  | _, _ => false

/-- A complete class file whose 2-entry constant-pool count is consumed by
a single Long constant decoded at the final wire slot (tag 5, payload 42),
followed by access flags 0x21, `this`/`super` 0, and empty interface,
field, method and attribute tables. -/
def cexPoolBytes : List Nat :=
  [0xCA, 0xFE, 0xBA, 0xBE, 0, 0, 0, 0, 0, 2,
   5, 0, 0, 0, 0, 0, 0, 0, 42,
   0, 0x21, 0, 0, 0, 0, 0, 0, 0, 0, 0, 0, 0, 0]

/-- The decoded form of `cexPoolBytes`. -/
def cexPoolClass : ClassFile :=
  { version := (0, 0), constant_pool := [.long 42, .unused], access_flags := 0x21,
    this_class := 0, super_class := 0, interfaces := [], fields := [],
    methods := [], attributes := [] }

/-- A well-formed class file with `constant_pool_count = 4`: a Long (slots
1–2) followed by an Integer (slot 3), then the same trailing sections as
`cexPoolBytes`. -/
def witPoolBytes : List Nat :=
  [0xCA, 0xFE, 0xBA, 0xBE, 0, 0, 0, 0, 0, 4,
   5, 0, 0, 0, 0, 0, 0, 0, 42,
   3, 0, 0, 0, 7,
   0, 0x21, 0, 0, 0, 0, 0, 0, 0, 0, 0, 0, 0, 0]

/-- The decoded form of `witPoolBytes`. -/
def witPoolClass : ClassFile :=
  { version := (0, 0), constant_pool := [.long 42, .unused, .integer 7],
    access_flags := 0x21, this_class := 0, super_class := 0, interfaces := [],
    fields := [], methods := [], attributes := [] }

/-- A class table holding a single class `"A"` whose `<clinit>` body
triggers initialisation of `"A"` itself (e.g. through a `getstatic` on its
own field, whose handler calls `init_class("A")`). -/
def selfInitTable : List (String × ClassRec) :=
  [("A", { initialised := false, hasClinit := true, clinitInits := ["A"] })]

/-! ## Helper lemmas -/

/-- A successful `readClassName` splits its input into the class name, the
terminating `';'`, and the unconsumed remainder. -/
theorem readClassName_eq (cs : List Char) :
    ∀ nm r, readClassName cs = some (nm, r) → cs = nm ++ ';' :: r := by
  induction cs with
  | nil => intro nm r h; simp [readClassName] at h
  | cons c rest ih =>
    intro nm r h
    by_cases hc : c = ';'
    · subst hc
      simp [readClassName] at h
      obtain ⟨h1, h2⟩ := h
      simp [← h1, ← h2]
    · rw [readClassName, if_neg hc] at h
      rcases Option.map_eq_some'.mp h with ⟨⟨nm', r'⟩, hrc, heq⟩
      obtain ⟨h1, h2⟩ := Prod.mk.injEq .. |>.mp heq
      subst h1
      subst h2
      simp [ih nm' r' hrc]

/-- A successful `FieldType::from_chars` consumes exactly the serialisation
of the field type it returns. -/
theorem from_chars_eq (cs : List Char) :
    ∀ id ft r, FieldType.from_chars id cs = some (ft, r) →
      id :: cs = ft.to_string ++ r := by
  induction cs with
  | nil =>
    intro id ft r h
    rw [FieldType.from_chars] at h
    by_cases h1 : id = 'B'
    · subst h1; simp at h; obtain ⟨hl, hr⟩ := h; subst hl; subst hr
      simp [FieldType.to_string]
    rw [if_neg h1] at h
    by_cases h2 : id = 'C'
    · subst h2; simp at h; obtain ⟨hl, hr⟩ := h; subst hl; subst hr
      simp [FieldType.to_string]
    rw [if_neg h2] at h
    by_cases h3 : id = 'D'
    · subst h3; simp at h; obtain ⟨hl, hr⟩ := h; subst hl; subst hr
      simp [FieldType.to_string]
    rw [if_neg h3] at h
    by_cases h4 : id = 'F'
    · subst h4; simp at h; obtain ⟨hl, hr⟩ := h; subst hl; subst hr
      simp [FieldType.to_string]
    rw [if_neg h4] at h
    by_cases h5 : id = 'I'
    · subst h5; simp at h; obtain ⟨hl, hr⟩ := h; subst hl; subst hr
      simp [FieldType.to_string]
    rw [if_neg h5] at h
    by_cases h6 : id = 'J'
    · subst h6; simp at h; obtain ⟨hl, hr⟩ := h; subst hl; subst hr
      simp [FieldType.to_string]
    rw [if_neg h6] at h
    by_cases h7 : id = 'L'
    · subst h7
      rw [if_pos rfl] at h
      simp [readClassName] at h
    rw [if_neg h7] at h
    by_cases h8 : id = 'S'
    · subst h8; simp at h; obtain ⟨hl, hr⟩ := h; subst hl; subst hr
      simp [FieldType.to_string]
    rw [if_neg h8] at h
    by_cases h9 : id = 'Z'
    · subst h9; simp at h; obtain ⟨hl, hr⟩ := h; subst hl; subst hr
      simp [FieldType.to_string]
    rw [if_neg h9] at h
    by_cases h10 : id = '['
    · subst h10; simp at h
    rw [if_neg h10] at h
    simp at h
  | cons c rest ih =>
    intro id ft r h
    rw [FieldType.from_chars] at h
    by_cases h1 : id = 'B'
    · subst h1; simp at h; obtain ⟨hl, hr⟩ := h; subst hl; subst hr
      simp [FieldType.to_string]
    rw [if_neg h1] at h
    by_cases h2 : id = 'C'
    · subst h2; simp at h; obtain ⟨hl, hr⟩ := h; subst hl; subst hr
      simp [FieldType.to_string]
    rw [if_neg h2] at h
    by_cases h3 : id = 'D'
    · subst h3; simp at h; obtain ⟨hl, hr⟩ := h; subst hl; subst hr
      simp [FieldType.to_string]
    rw [if_neg h3] at h
    by_cases h4 : id = 'F'
    · subst h4; simp at h; obtain ⟨hl, hr⟩ := h; subst hl; subst hr
      simp [FieldType.to_string]
    rw [if_neg h4] at h
    by_cases h5 : id = 'I'
    · subst h5; simp at h; obtain ⟨hl, hr⟩ := h; subst hl; subst hr
      simp [FieldType.to_string]
    rw [if_neg h5] at h
    by_cases h6 : id = 'J'
    · subst h6; simp at h; obtain ⟨hl, hr⟩ := h; subst hl; subst hr
      simp [FieldType.to_string]
    rw [if_neg h6] at h
    by_cases h7 : id = 'L'
    · subst h7
      rw [if_pos rfl] at h
      rcases Option.map_eq_some'.mp h with ⟨⟨nm, r'⟩, hrc, heq⟩
      obtain ⟨hl, hr⟩ := Prod.mk.injEq .. |>.mp heq
      subst hl; subst hr
      simp [FieldType.to_string, readClassName_eq _ _ _ hrc]
    rw [if_neg h7] at h
    by_cases h8 : id = 'S'
    · subst h8; simp at h; obtain ⟨hl, hr⟩ := h; subst hl; subst hr
      simp [FieldType.to_string]
    rw [if_neg h8] at h
    by_cases h9 : id = 'Z'
    · subst h9; simp at h; obtain ⟨hl, hr⟩ := h; subst hl; subst hr
      simp [FieldType.to_string]
    rw [if_neg h9] at h
    by_cases h10 : id = '['
    · subst h10
      rw [if_pos rfl] at h
      rcases Option.map_eq_some'.mp h with ⟨⟨ft', r'⟩, hrc, heq⟩
      obtain ⟨hl, hr⟩ := Prod.mk.injEq .. |>.mp heq
      subst hl; subst hr
      have hrec := ih c ft' r' hrc
      simp [FieldType.to_string, hrec]
    rw [if_neg h10] at h
    simp at h

/-- A successful `ReturnDescriptor::from_chars` consumes exactly the
serialisation of the descriptor it returns. -/
theorem return_from_chars_eq (id : Char) (cs : List Char)
    (rd : ReturnDescriptor) (r : List Char)
    (h : ReturnDescriptor.from_chars id cs = some (rd, r)) :
    id :: cs = rd.to_string ++ r := by
  rw [ReturnDescriptor.from_chars.eq_def] at h
  by_cases hV : id = 'V'
  · subst hV
    simp at h
    obtain ⟨h1, h2⟩ := h
    subst h1
    subst h2
    simp [ReturnDescriptor.to_string]
  · rw [if_neg hV] at h
    rcases Option.map_eq_some'.mp h with ⟨⟨ft, r'⟩, hrc, heq⟩
    obtain ⟨h1, h2⟩ := Prod.mk.injEq .. |>.mp heq
    subst h1
    subst h2
    simp [ReturnDescriptor.to_string, from_chars_eq _ _ _ _ hrc]

/-- A successful parameter loop consumes exactly the serialisations of the
parameters it returns followed by the closing `')'`. -/
theorem parseParamsF_eq :
    ∀ (fuel : Nat) (s : List Char) (ps : List FieldType) (r : List Char),
      parseParamsF fuel s = some (ps, r) →
      s = (ps.map FieldType.to_string).flatten ++ ')' :: r := by
  intro fuel
  induction fuel with
  | zero => intro s ps r h; simp [parseParamsF] at h
  | succ fuel ih =>
    intro s ps r h
    match s with
    | [] => simp [parseParamsF] at h
    | id :: rest =>
      rw [parseParamsF] at h
      by_cases hp : id = ')'
      · subst hp
        simp at h
        obtain ⟨h1, h2⟩ := h
        subst h1
        subst h2
        simp
      · rw [if_neg hp] at h
        match hfc : FieldType.from_chars id rest with
        | none => rw [hfc] at h; simp at h
        | some (ft, rest') =>
          rw [hfc] at h
          rcases Option.map_eq_some'.mp h with ⟨⟨ps', r'⟩, hrec, heq⟩
          obtain ⟨h1, h2⟩ := Prod.mk.injEq .. |>.mp heq
          subst h1
          subst h2
          have hone := from_chars_eq rest id ft rest' hfc
          have htwo := ih rest' ps' r' hrec
          rw [List.map_cons, List.flatten_cons, List.append_assoc]
          rw [← htwo, ← hone]

/-- A successful `MethodDescriptor` parse consumes exactly the
serialisation of the descriptor it returns. -/
theorem parse_eq (s : List Char) (md : MethodDescriptor) (r : List Char)
    (h : MethodDescriptor.parse s = some (md, r)) :
    s = md.to_string ++ r := by
  rcases s with _ | ⟨c, rest⟩
  · simp [MethodDescriptor.parse] at h
  · rw [MethodDescriptor.parse.eq_def] at h
    simp only [] at h
    by_cases hc : c = '('
    · subst hc
      rw [if_pos rfl] at h
      rcases rest with _ | ⟨c2, rest'⟩
      · simp at h
      · simp only [] at h
        cases hpp : parseParamsF (c2 :: rest').length (c2 :: rest') with
        | none => rw [hpp] at h; simp at h
        | some v =>
          obtain ⟨params, afterParams⟩ := v
          rw [hpp] at h
          rcases afterParams with _ | ⟨id, rest2⟩
          · simp at h
          · simp only [] at h
            rcases Option.map_eq_some'.mp h with ⟨⟨rd, r'⟩, hrd, heq⟩
            obtain ⟨h1, h2⟩ := Prod.mk.injEq .. |>.mp heq
            obtain ⟨h1a, h1b⟩ := MethodDescriptor.mk.injEq .. |>.mp h1.symm
            subst h2
            have hps := parseParamsF_eq (c2 :: rest').length (c2 :: rest')
              params (id :: rest2) hpp
            have hrd' := return_from_chars_eq id rest2 rd r' hrd
            simp only [MethodDescriptor.to_string, h1a, h1b, hps, hrd']
            simp [List.append_assoc]
    · rw [if_neg hc] at h
      simp at h

/-! ## Claim theorems -/

/-- C8 (counterexample): the round-trip law fails for the full set of
strings `MethodDescriptor::from_str` accepts, because the parser never
checks that the input is exhausted after the return descriptor: the string
`"()VX"` is accepted (parsing to the empty-parameter `void` descriptor) yet
reserialises to `"()V"`, not to the original string. -/
theorem descriptor_roundtrip_cex :
    MethodDescriptor.from_str "()VX".data =
      some { params := [], return_value := .void } ∧
    MethodDescriptor.to_string { params := [], return_value := .void } ≠
      "()VX".data := by
  exact ⟨by decide, by decide⟩

/-- C8 (amended): parsing then serialising is the identity on every
descriptor string the parser consumes *entirely* (in particular on every
well-formed descriptor); `from_str` additionally accepts strings with
trailing garbage, which reserialise to their consumed prefix instead. -/
theorem descriptor_roundtrip (s : List Char) (md : MethodDescriptor)
    (h : MethodDescriptor.parse s = some (md, [])) :
    md.to_string = s := by
  have he := parse_eq s md [] h
  simpa using he.symm

/-- Witness for `descriptor_roundtrip`: the two concrete descriptors named
by the claim are fully consumed, parse to the stated structures, and
reserialise to the original strings. -/
theorem descriptor_roundtrip_witness :
    MethodDescriptor.parse "(IDLjava/lang/Thread;)Ljava/lang/Object;".data =
      some ({ params := [.int, .double, .objReference "java/lang/Thread".data],
              return_value := .fieldType (.objReference "java/lang/Object".data) }, []) ∧
    MethodDescriptor.to_string
        { params := [.int, .double, .objReference "java/lang/Thread".data],
          return_value := .fieldType (.objReference "java/lang/Object".data) } =
      "(IDLjava/lang/Thread;)Ljava/lang/Object;".data ∧
    MethodDescriptor.parse "([[B)V".data =
      some ({ params := [.arrReference (.arrReference .byte)],
              return_value := .void }, []) ∧
    MethodDescriptor.to_string
        { params := [.arrReference (.arrReference .byte)], return_value := .void } =
      "([[B)V".data :=
  ⟨by decide, descriptor_roundtrip _ _ (by decide),
   by decide, descriptor_roundtrip _ _ (by decide)⟩

/-- C10: executing the `pop` opcode (0x57) on a frame whose operand stack
is empty succeeds and leaves the frame's locals, the operand stack, the
rest of the call stack and the heap unchanged (`Vec::pop` on an empty
vector is a discarded `None`), whereas the `dup` opcode (0x59) on the same
state fails with the stack-exhausted error. -/
theorem pop_empty_stack_ok (locals : List DataType) (pc : Nat)
    (rest : List StackFrame) (heap : List HeapItem) :
    op_pop ⟨⟨locals, [], pc⟩ :: rest, heap⟩ = .ok ⟨⟨locals, [], pc⟩ :: rest, heap⟩ ∧
    op_dup ⟨⟨locals, [], pc⟩ :: rest, heap⟩ = .err "No value on stack" :=
  ⟨rfl, rfl⟩

/-- C5 (evaluation at the failing input): with the operand stack holding
`[.., Int 6, Int 3]` (6 beneath 3), `idiv` pops `a = 3` (the top), then
`b = 6`, and pushes `a / b = 3 / 6 = Int 0` — not `Int 2 = 6 / 3` as the
claim (pop v2, pop v1, push v1/v2) requires.  The deeper operand is used as
the divisor, not as the dividend. -/
theorem idiv_operand_order_cex :
    op_idiv ⟨[⟨[], [.int 3, .int 6], 0⟩], []⟩ = .ok ⟨[⟨[], [.int 0], 0⟩], []⟩ ∧
    (0 : Int) ≠ 2 :=
  ⟨by decide, by decide⟩

/-- C6 (evaluation at the failing inputs): a zero divisor never produces an
arithmetic error value.  With the spec's divisor `v2 = Int 0` on top of the
stack (`[.., Int 6, Int 0]`), the handler computes `0 / 6` and succeeds
with `Int 0`; with the zero beneath the top (`[.., Int 0, Int 6]`), the
native Rust `i32` division panics ("attempt to divide by zero") instead of
returning an error value. -/
theorem idiv_zero_divisor_cex :
    op_idiv ⟨[⟨[], [.int 0, .int 6], 0⟩], []⟩ = .ok ⟨[⟨[], [.int 0], 0⟩], []⟩ ∧
    op_idiv ⟨[⟨[], [.int 6, .int 0], 0⟩], []⟩ =
      .panicked "attempt to divide by zero" :=
  ⟨by decide, by decide⟩

/-- C7 (evaluation at the failing input): `bipush` reads its immediate with
`read_u8` and pushes `Int(byte.into())`, a zero-extending `u8 → i32`
conversion: the immediate byte 0xFF pushes `Int 255`, not the
sign-extended `Int (-1)` the claim (and §4.7 of the specification)
requires. -/
theorem bipush_zero_extends_cex :
    op_bipush ⟨[⟨[], [], 0⟩], []⟩ [0xFF] = .ok ⟨[⟨[], [.int 255], 0⟩], []⟩ ∧
    (255 : Int) ≠ -1 :=
  ⟨by decide, by decide⟩

/-- C4 (evaluation at the failing inputs): two of the wire-index consumers
skip the 1-origin adjustment.  (1) `Attribute::from_raw` resolves a
`ConstantValue` body holding wire index 2 to `const_pool[2]` — the `Unused`
sentinel — while the adjusted lookup (`poolAt1`) of wire index 2 is the
Long constant; the contract says an `Unused` target must never be
returned.  (2) `ClassFile::interfaces()` maps the stored wire index 1 to
`constant_pool[1]` — the Utf8 entry — while the adjusted lookup of wire
index 1 is the Class constant the index actually designates. -/
theorem pool_index_adjustment_cex :
    Attribute.from_raw ⟨1, [0, 2]⟩ [.utf8 "ConstantValue", .long 99, .unused] =
      some (.constantValue .unused) ∧
    poolAt1 [.utf8 "ConstantValue", .long 99, .unused] 2 = some (.long 99) ∧
    ClassFile.interfacesView
        ⟨(0, 0), [.classRef 2, .utf8 "A"], 0, 0, 0, [1], [], [], []⟩ =
      some [.utf8 "A"] ∧
    poolAt1 [.classRef 2, .utf8 "A"] 1 = some (.classRef 2) :=
  ⟨by decide, by decide, by decide, by decide⟩

/-- C9 (counterexample): exact-variant stores into Boolean and Byte arrays
succeed, while the claim's enumeration ("every other value/element-type
combination fails with a TypeError") places them among the failing
combinations. -/
theorem array_set_exact_match_cex :
    (Jvm.Array.boolean [false]).set 0 (.boolean true) = .ok (.boolean [true]) ∧
    (Jvm.Array.byte [0]).set 0 (.byte 5) = .ok (.byte [5]) :=
  ⟨by decide, by decide⟩

/-- C9 (amended): `Array::set` stores an `Int` into a Boolean array as its
low bit and into a Byte array as its low 8 bits reinterpreted as a signed
byte; Boolean and Byte arrays also accept their exact variants, and Char,
Float, Double, Short, Int and Long arrays accept exactly their matching
variant; every combination outside `writeCompatible` fails with a
type-mismatch error, issued before any write, so the array is unchanged. -/
theorem array_set_coercions :
    (∀ (a : List Bool) (i : Nat) (v : Int), i < a.length →
      (Jvm.Array.boolean a).set i (.int v) =
        .ok (.boolean (a.set i (v % 2 != 0)))) ∧
    (∀ (a : List Bool) (i : Nat) (b : Bool), i < a.length →
      (Jvm.Array.boolean a).set i (.boolean b) = .ok (.boolean (a.set i b))) ∧
    (∀ (a : List Int) (i : Nat) (v : Int), i < a.length →
      (Jvm.Array.byte a).set i (.int v) =
        .ok (.byte (a.set i (asI8 (v % 256))))) ∧
    (∀ (a : List Int) (i : Nat) (v : Int), i < a.length →
      (Jvm.Array.byte a).set i (.byte v) = .ok (.byte (a.set i v))) ∧
    (∀ (a : List Nat) (i : Nat) (v : Nat), i < a.length →
      (Jvm.Array.char a).set i (.char v) = .ok (.char (a.set i v))) ∧
    (∀ (a : List Nat) (i : Nat) (v : Nat), i < a.length →
      (Jvm.Array.float a).set i (.float v) = .ok (.float (a.set i v))) ∧
    (∀ (a : List Nat) (i : Nat) (v : Nat), i < a.length →
      (Jvm.Array.double a).set i (.double v) = .ok (.double (a.set i v))) ∧
    (∀ (a : List Int) (i : Nat) (v : Int), i < a.length →
      (Jvm.Array.short a).set i (.short v) = .ok (.short (a.set i v))) ∧
    (∀ (a : List Int) (i : Nat) (v : Int), i < a.length →
      (Jvm.Array.int a).set i (.int v) = .ok (.int (a.set i v))) ∧
    (∀ (a : List Int) (i : Nat) (v : Int), i < a.length →
      (Jvm.Array.long a).set i (.long v) = .ok (.long (a.set i v))) ∧
    (∀ (arr : Jvm.Array) (i : Nat) (v : DataType),
      writeCompatible arr v = false → ∃ msg, arr.set i v = .err msg) := by
  refine ⟨?_, ?_, ?_, ?_, ?_, ?_, ?_, ?_, ?_, ?_, ?_⟩
  · intro a i v hi; simp [Jvm.Array.set, hi]
  · intro a i b hi; simp [Jvm.Array.set, hi]
  · intro a i v hi; simp [Jvm.Array.set, hi]
  · intro a i v hi; simp [Jvm.Array.set, hi]
  · intro a i v hi; simp [Jvm.Array.set, hi]
  · intro a i v hi; simp [Jvm.Array.set, hi]
  · intro a i v hi; simp [Jvm.Array.set, hi]
  · intro a i v hi; simp [Jvm.Array.set, hi]
  · intro a i v hi; simp [Jvm.Array.set, hi]
  · intro a i v hi; simp [Jvm.Array.set, hi]
  · intro arr i v hcomp
    cases arr <;> cases v <;> simp_all [writeCompatible, Jvm.Array.set]

/-- Witness for `array_set_coercions`: a low-bit Boolean coercion, a
signed-byte Byte coercion, and a mismatch (Long value into an Int array)
at concrete inputs. -/
theorem array_set_coercions_witness :
    (Jvm.Array.boolean [false, false]).set 0 (.int 3) =
      .ok (.boolean [true, false]) ∧
    (Jvm.Array.byte [0]).set 0 (.int 200) = .ok (.byte [-56]) ∧
    (∃ msg, (Jvm.Array.int [0]).set 0 (.long 1) = .err msg) := by
  refine ⟨?_, ?_, ?_⟩
  · have h := array_set_coercions.1 [false, false] 0 3 (by decide)
    simpa using h
  · have h := array_set_coercions.2.2.1 [0] 0 200 (by decide)
    simpa [asI8] using h
  · exact array_set_coercions.2.2.2.2.2.2.2.2.2.2
      (Jvm.Array.int [0]) 0 (.long 1) (by decide)

/-- C2 (evaluation at the failing input): `init_class` only sets the
`initialised` flag *after* `run_method` has finished running `<clinit>`, so
the class table observed while the initialiser executes still shows the
class uninitialised, and a recursive `init_class` of the same class
re-enters the run branch instead of returning false: on a class whose
`<clinit>` touches the class itself, the recursion never terminates (no
result at any recursion depth), where the claim requires the nested call
to be a no-op returning false. -/
theorem init_class_recursive_reentry :
    ∀ fuel, init_class fuel selfInitTable "A" = none := by
  intro fuel
  induction fuel with
  | zero => simp [init_class]
  | succ fuel ih =>
    rw [init_class]
    simp [selfInitTable, List.lookup, run_clinit, ih] at *

/-- Dropping at the write position of `List.set`: the freshly written value
heads the remainder. -/
theorem drop_set_eq_cons {α : Type} (l : List α) :
    ∀ (j : Nat) (v : α), j < l.length →
      (l.set j v).drop j = v :: l.drop (j + 1) := by
  induction l with
  | nil => intro j v hj; simp at hj
  | cons a as ih =>
    intro j v hj
    cases j with
    | zero => simp
    | succ j =>
      simp only [List.set_cons_succ, List.drop_succ_cons]
      exact ih j v (by simpa using hj)

/-- The argument-transfer loop of `invokestatic`, characterised: with
`args` the popped prefix of the caller's operand stack (head = first pop =
top of stack) and enough local slots, the loop removes exactly `args` from
the caller and writes them into locals `[0 .. args.length)` in reverse pop
order, leaving the deeper operand stack and all other fields unchanged. -/
theorem invokestatic_loop_eq (args : List DataType) :
    ∀ (s vars osN varsC : List DataType) (pcC pcN : Nat),
      args.length ≤ vars.length →
      invokestatic_loop args.length ⟨varsC, args ++ s, pcC⟩ ⟨vars, osN, pcN⟩ =
        some (⟨varsC, s, pcC⟩,
              ⟨args.reverse ++ vars.drop args.length, osN, pcN⟩) := by
  induction args with
  | nil => intro s vars osN varsC pcC pcN hle; simp [invokestatic_loop]
  | cons v args' ih =>
    intro s vars osN varsC pcC pcN hle
    have hlt : args'.length < vars.length := by simpa using hle
    simp only [List.length_cons]
    rw [invokestatic_loop]
    simp only [List.cons_append]
    rw [show setVariable vars args'.length v = some (vars.set args'.length v) by
      simp [setVariable, hlt]]
    simp only []
    rw [ih s (vars.set args'.length v) osN varsC pcC pcN
      (by simp [List.length_set, hlt.le])]
    simp [drop_set_eq_cons vars args'.length v hlt, List.reverse_cons,
      List.append_assoc]

/-- C1: resolving a non-native static method with `k = pushedArgs.length`
descriptor parameters, `invokestatic` pops exactly `k` operands from the
caller (whose operand stack holds `pushedArgs.reverse ++ s`, the arguments
having been pushed left-to-right so the last argument is on top), writes
the i-th popped value into local slot `k - 1 - i` of the fresh frame — so
locals `[0 .. k)` hold the arguments in left-to-right order, padded with
`Empty` up to `max_locals` — pushes the new frame as top of stack and
transfers execution to it; a subsequent `ireturn` in the callee pops the
callee's top operand, pops the callee frame, and pushes that value onto
the caller's operand stack, leaving the caller as top of stack with
exactly one new value `v` on top of its remaining stack `s`. -/
theorem invokestatic_ireturn_transfer
    (jvm : JvmState) (caller : StackFrame) (below : List StackFrame)
    (pushedArgs s : List DataType) (max_locals : Nat)
    (hstack : jvm.stack = caller :: below)
    (hos : caller.op_stack = pushedArgs.reverse ++ s)
    (hk : pushedArgs.length ≤ max_locals) :
    invokestatic_nonnative jvm pushedArgs.length max_locals =
      some { stack :=
               ⟨pushedArgs ++ List.replicate (max_locals - pushedArgs.length)
                  DataType.empty, [], 0⟩ ::
               { caller with op_stack := s } :: below,
             heap := jvm.heap } ∧
    (∀ i, i < pushedArgs.length →
      (pushedArgs ++ List.replicate (max_locals - pushedArgs.length)
        DataType.empty)[pushedArgs.length - 1 - i]? =
        pushedArgs.reverse[i]?) ∧
    (∀ (calleeLocals os' : List DataType) (calleePc : Nat) (v : DataType)
        (heap' : List HeapItem),
      op_ireturn ⟨⟨calleeLocals, v :: os', calleePc⟩ ::
          { caller with op_stack := s } :: below, heap'⟩ =
        .ok ⟨{ caller with op_stack := v :: s } :: below, heap'⟩) := by
  refine ⟨?_, ?_, ?_⟩
  · obtain ⟨cv, cos, cpc⟩ := caller
    simp only at hos
    subst hos
    rw [invokestatic_nonnative, hstack]
    have hrl : pushedArgs.length = pushedArgs.reverse.length := by simp
    simp only []
    rw [show StackFrame.for_method max_locals =
        ⟨List.replicate max_locals DataType.empty, [], 0⟩ from rfl]
    rw [hrl, invokestatic_loop_eq pushedArgs.reverse s
      (List.replicate max_locals DataType.empty) [] cv cpc 0
      (by simpa using hk)]
    simp [List.drop_replicate]
  · intro i hi
    have h1 : pushedArgs.length - 1 - i < pushedArgs.length := by omega
    rw [List.getElem?_append, if_pos h1]
    rw [List.getElem?_reverse (by simpa using hi)]
  · intro calleeLocals os' calleePc v heap'
    rfl

/-- Witness for `invokestatic_ireturn_transfer`: two `Int` arguments 10 and
20 pushed left-to-right over a remaining stack `[Int 99]`, a callee with
three local slots, and an `ireturn` of `Int 42` from the callee. -/
theorem invokestatic_ireturn_transfer_witness :
    invokestatic_nonnative
        ⟨[⟨[.int 7], [.int 20, .int 10, .int 99], 5⟩], []⟩ 2 3 =
      some ⟨[⟨[.int 10, .int 20, .empty], [], 0⟩,
             ⟨[.int 7], [.int 99], 5⟩], []⟩ ∧
    op_ireturn ⟨[⟨[], [.int 42], 0⟩, ⟨[.int 7], [.int 99], 5⟩], []⟩ =
      .ok ⟨[⟨[.int 7], [.int 42, .int 99], 5⟩], []⟩ := by
  have h := invokestatic_ireturn_transfer
    ⟨[⟨[.int 7], [.int 20, .int 10, .int 99], 5⟩], []⟩
    ⟨[.int 7], [.int 20, .int 10, .int 99], 5⟩ []
    [.int 10, .int 20] [.int 99] 3 rfl (by decide) (by decide)
  exact ⟨h.1, h.2.2 [] [] 0 (.int 42) []⟩

/-- `RawConstant::read_from` returns `skip_next = true` exactly for the
two-slot (Long/Double) constants. -/
theorem read_from_skip_iff_wide (r : List Nat) (c : RawConstant) (sk : Bool)
    (r' : List Nat) (h : RawConstant.read_from r = some (c, sk, r')) :
    c.isWide = sk := by
  cases hr : read_u8 r with
  | none => rw [RawConstant.read_from, hr] at h; simp at h
  | some p =>
    obtain ⟨tag, r1⟩ := p
    rw [RawConstant.read_from, hr] at h
    simp only [Option.bind_eq_bind, Option.some_bind] at h
    by_cases ht1 : tag = 7
    · subst ht1
      rw [if_pos rfl] at h
      rcases Option.bind_eq_some.mp h with ⟨⟨x0, rr0⟩, hb0, h⟩
      simp at h
      obtain ⟨hc, hsk, hrr⟩ := h
      subst hc; subst hsk; rfl
    rw [if_neg ht1] at h
    by_cases ht2 : tag = 9
    · subst ht2
      rw [if_pos rfl] at h
      rcases Option.bind_eq_some.mp h with ⟨⟨x0, rr0⟩, hb0, h⟩
      rcases Option.bind_eq_some.mp h with ⟨⟨x1, rr1⟩, hb1, h⟩
      simp at h
      obtain ⟨hc, hsk, hrr⟩ := h
      subst hc; subst hsk; rfl
    rw [if_neg ht2] at h
    by_cases ht3 : tag = 10
    · subst ht3
      rw [if_pos rfl] at h
      rcases Option.bind_eq_some.mp h with ⟨⟨x0, rr0⟩, hb0, h⟩
      rcases Option.bind_eq_some.mp h with ⟨⟨x1, rr1⟩, hb1, h⟩
      simp at h
      obtain ⟨hc, hsk, hrr⟩ := h
      subst hc; subst hsk; rfl
    rw [if_neg ht3] at h
    by_cases ht4 : tag = 11
    · subst ht4
      rw [if_pos rfl] at h
      rcases Option.bind_eq_some.mp h with ⟨⟨x0, rr0⟩, hb0, h⟩
      rcases Option.bind_eq_some.mp h with ⟨⟨x1, rr1⟩, hb1, h⟩
      simp at h
      obtain ⟨hc, hsk, hrr⟩ := h
      subst hc; subst hsk; rfl
    rw [if_neg ht4] at h
    by_cases ht5 : tag = 8
    · subst ht5
      rw [if_pos rfl] at h
      rcases Option.bind_eq_some.mp h with ⟨⟨x0, rr0⟩, hb0, h⟩
      simp at h
      obtain ⟨hc, hsk, hrr⟩ := h
      subst hc; subst hsk; rfl
    rw [if_neg ht5] at h
    by_cases ht6 : tag = 3
    · subst ht6
      rw [if_pos rfl] at h
      rcases Option.bind_eq_some.mp h with ⟨⟨x0, rr0⟩, hb0, h⟩
      simp at h
      obtain ⟨hc, hsk, hrr⟩ := h
      subst hc; subst hsk; rfl
    rw [if_neg ht6] at h
    by_cases ht7 : tag = 4
    · subst ht7
      rw [if_pos rfl] at h
      rcases Option.bind_eq_some.mp h with ⟨⟨x0, rr0⟩, hb0, h⟩
      simp at h
      obtain ⟨hc, hsk, hrr⟩ := h
      subst hc; subst hsk; rfl
    rw [if_neg ht7] at h
    by_cases ht8 : tag = 5
    · subst ht8
      rw [if_pos rfl] at h
      rcases Option.bind_eq_some.mp h with ⟨⟨x0, rr0⟩, hb0, h⟩
      simp at h
      obtain ⟨hc, hsk, hrr⟩ := h
      subst hc; subst hsk; rfl
    rw [if_neg ht8] at h
    by_cases ht9 : tag = 6
    · subst ht9
      rw [if_pos rfl] at h
      rcases Option.bind_eq_some.mp h with ⟨⟨x0, rr0⟩, hb0, h⟩
      simp at h
      obtain ⟨hc, hsk, hrr⟩ := h
      subst hc; subst hsk; rfl
    rw [if_neg ht9] at h
    by_cases ht10 : tag = 12
    · subst ht10
      rw [if_pos rfl] at h
      rcases Option.bind_eq_some.mp h with ⟨⟨x0, rr0⟩, hb0, h⟩
      rcases Option.bind_eq_some.mp h with ⟨⟨x1, rr1⟩, hb1, h⟩
      simp at h
      obtain ⟨hc, hsk, hrr⟩ := h
      subst hc; subst hsk; rfl
    rw [if_neg ht10] at h
    by_cases ht11 : tag = 1
    · subst ht11
      rw [if_pos rfl] at h
      rcases Option.bind_eq_some.mp h with ⟨⟨x0, rr0⟩, hb0, h⟩
      rcases Option.bind_eq_some.mp h with ⟨⟨x1, rr1⟩, hb1, h⟩
      rcases Option.bind_eq_some.mp h with ⟨sv, hb2, h⟩
      simp at h
      obtain ⟨hc, hsk, hrr⟩ := h
      subst hc; subst hsk; rfl
    rw [if_neg ht11] at h
    by_cases ht12 : tag = 15
    · subst ht12
      rw [if_pos rfl] at h
      rcases Option.bind_eq_some.mp h with ⟨⟨x0, rr0⟩, hb0, h⟩
      rcases Option.bind_eq_some.mp h with ⟨⟨x1, rr1⟩, hb1, h⟩
      simp at h
      obtain ⟨hc, hsk, hrr⟩ := h
      subst hc; subst hsk; rfl
    rw [if_neg ht12] at h
    by_cases ht13 : tag = 16
    · subst ht13
      rw [if_pos rfl] at h
      rcases Option.bind_eq_some.mp h with ⟨⟨x0, rr0⟩, hb0, h⟩
      simp at h
      obtain ⟨hc, hsk, hrr⟩ := h
      subst hc; subst hsk; rfl
    rw [if_neg ht13] at h
    by_cases ht14 : tag = 18
    · subst ht14
      rw [if_pos rfl] at h
      rcases Option.bind_eq_some.mp h with ⟨⟨x0, rr0⟩, hb0, h⟩
      rcases Option.bind_eq_some.mp h with ⟨⟨x1, rr1⟩, hb1, h⟩
      simp at h
      obtain ⟨hc, hsk, hrr⟩ := h
      subst hc; subst hsk; rfl
    rw [if_neg ht14] at h
    simp at h

/-- `endsWidePair` is stable under prepending an element. -/
theorem endsWidePair_cons (x : RawConstant) (l : List RawConstant)
    (h : endsWidePair l) : endsWidePair (x :: l) := by
  obtain ⟨l0, w, hw, hl⟩ := h
  exact ⟨x :: l0, w, hw, by simp [hl]⟩

/-- The constant-pool loop produces exactly its iteration budget of slots,
except when a Long/Double lands on the final slot, where one extra
`Unused` slot is pushed and the list ends with the wide/Unused pair. -/
theorem readConstants_length :
    ∀ (rem : Nat) (r : List Nat) (l : List RawConstant) (r' : List Nat),
      readConstants rem r = some (l, r') →
      l.length = rem ∨ (l.length = rem + 1 ∧ endsWidePair l) := by
  intro rem
  induction rem using Nat.strong_induction_on with
  | _ rem ih =>
    intro r l r' h
    match rem with
    | 0 =>
      left
      simp [readConstants] at h
      simp [← h.1]
    | rem + 1 =>
      rw [readConstants] at h
      rcases Option.bind_eq_some.mp h with ⟨⟨c0, sk, r1⟩, hread, h⟩
      have hwide := read_from_skip_iff_wide _ _ _ _ hread
      cases sk with
      | true =>
        simp only [if_pos] at h
        match rem, h with
        | 0, h =>
          right
          simp at h
          obtain ⟨h1, h2⟩ := h
          subst h1
          exact ⟨by simp, [], c0, hwide, rfl⟩
        | rem2 + 1, h =>
          rcases Option.map_eq_some'.mp h with ⟨⟨l2, r2⟩, hrec, heq⟩
          obtain ⟨hl, hr⟩ := Prod.mk.injEq .. |>.mp heq
          subst hl
          subst hr
          rcases ih rem2 (by omega) r1 l2 r2 hrec with h2 | ⟨h2, hend⟩
          · left; simp [h2]
          · right
            exact ⟨by simp [h2], endsWidePair_cons _ _ (endsWidePair_cons _ _ hend)⟩
      | false =>
        simp only [Bool.false_eq_true, if_false] at h
        rcases Option.map_eq_some'.mp h with ⟨⟨l2, r2⟩, hrec, heq⟩
        obtain ⟨hl, hr⟩ := Prod.mk.injEq .. |>.mp heq
        subst hl
        subst hr
        rcases ih rem (by omega) r1 l2 r2 hrec with h2 | ⟨h2, hend⟩
        · left; simp [h2]
        · right
          exact ⟨by simp [h2], endsWidePair_cons _ _ hend⟩

/-- The Unused-successor invariant: in any pool list the loop produces,
every Long/Double slot is immediately followed by the `Unused` sentinel. -/
theorem readConstants_unused :
    ∀ (rem : Nat) (r : List Nat) (l : List RawConstant) (r' : List Nat),
      readConstants rem r = some (l, r') →
      ∀ j c, l[j]? = some c → c.isWide = true →
        l[j+1]? = some RawConstant.unused := by
  intro rem
  induction rem using Nat.strong_induction_on with
  | _ rem ih =>
    intro r l r' h
    match rem with
    | 0 =>
      intro j c hj hw
      simp [readConstants] at h
      obtain ⟨h1, h2⟩ := h
      subst h1
      simp at hj
    | rem + 1 =>
      intro j c hj hw
      rw [readConstants] at h
      rcases Option.bind_eq_some.mp h with ⟨⟨c0, sk, r1⟩, hread, h⟩
      have hwide := read_from_skip_iff_wide _ _ _ _ hread
      cases sk with
      | true =>
        simp only [if_pos] at h
        match rem, h with
        | 0, h =>
          simp at h
          obtain ⟨h1, h2⟩ := h
          subst h1
          match j, hj with
          | 0, hj => simp
          | 1, hj =>
            simp at hj
            rw [← hj] at hw
            simp [RawConstant.isWide] at hw
          | n + 2, hj => simp at hj
        | rem2 + 1, h =>
          rcases Option.map_eq_some'.mp h with ⟨⟨l2, r2⟩, hrec, heq⟩
          obtain ⟨hl, hr⟩ := Prod.mk.injEq .. |>.mp heq
          subst hl
          subst hr
          match j, hj with
          | 0, hj => simp
          | 1, hj =>
            simp at hj
            rw [← hj] at hw
            simp [RawConstant.isWide] at hw
          | n + 2, hj =>
            simp only [List.getElem?_cons_succ] at hj ⊢
            exact ih rem2 (by omega) r1 l2 r2 hrec n c hj hw
      | false =>
        simp only [Bool.false_eq_true, if_false] at h
        rcases Option.map_eq_some'.mp h with ⟨⟨l2, r2⟩, hrec, heq⟩
        obtain ⟨hl, hr⟩ := Prod.mk.injEq .. |>.mp heq
        subst hl
        subst hr
        match j, hj with
        | 0, hj =>
          simp at hj
          rw [← hj] at hw
          rw [hwide] at hw
          simp at hw
        | n + 1, hj =>
          simp only [List.getElem?_cons_succ] at hj ⊢
          exact ih rem (by omega) r1 l2 r2 hrec n c hj hw

/-- Consuming one byte leaves the one-step tail of the stream. -/
theorem read_u8_rest (l : List Nat) (v : Nat) (r : List Nat)
    (h : read_u8 l = some (v, r)) : r = l.drop 1 := by
  cases l with
  | nil => simp [read_u8] at h
  | cons b bs =>
    simp [read_u8] at h
    obtain ⟨h1, h2⟩ := h
    subst h2
    rfl

/-- Consuming a u16 leaves the two-step tail of the stream. -/
theorem read_u16_rest (l : List Nat) (v : Nat) (r : List Nat)
    (h : read_u16 l = some (v, r)) : r = l.drop 2 := by
  rw [read_u16] at h
  rcases Option.bind_eq_some.mp h with ⟨⟨a, r1⟩, ha, h⟩
  rcases Option.bind_eq_some.mp h with ⟨⟨b, r2⟩, hb, h⟩
  simp at h
  obtain ⟨hv, hr⟩ := h
  subst hr
  rw [read_u8_rest _ _ _ hb, read_u8_rest _ _ _ ha, List.drop_drop]

/-- Consuming a u32 leaves the four-step tail of the stream. -/
theorem read_u32_rest (l : List Nat) (v : Nat) (r : List Nat)
    (h : read_u32 l = some (v, r)) : r = l.drop 4 := by
  rw [read_u32] at h
  rcases Option.bind_eq_some.mp h with ⟨⟨a, r1⟩, ha, h⟩
  rcases Option.bind_eq_some.mp h with ⟨⟨b, r2⟩, hb, h⟩
  simp at h
  obtain ⟨hv, hr⟩ := h
  subst hr
  rw [read_u16_rest _ _ _ hb, read_u16_rest _ _ _ ha, List.drop_drop]

/-- C3 (amended): after `ClassFile::read_from` succeeds, the constant pool
holds `constant_pool_count - 1` slots — unless a Long/Double constant was
decoded at the final wire slot, in which case the trailing `Unused`
sentinel overflows the nominal count and the pool holds
`constant_pool_count` slots, ending with the wide/Unused pair; in every
case each Long/Double slot is immediately followed by the `Unused`
sentinel (so a Long decoded at wire slot 7 leaves wire slot 8 as Unused
and slot 7 resolves to the Long).  `count` is the `constant_pool_count`
u16 read at byte offset 8 of the stream. -/
theorem constant_pool_slots (bytes : List Nat) (cf : ClassFile)
    (h : ClassFile.read_from bytes = some cf) :
    ∃ count rest, read_u16 (bytes.drop 8) = some (count, rest) ∧ 1 ≤ count ∧
      (cf.constant_pool.length = count - 1 ∨
        (cf.constant_pool.length = count ∧ endsWidePair cf.constant_pool)) ∧
      (∀ j c, cf.constant_pool[j]? = some c → c.isWide = true →
        cf.constant_pool[j+1]? = some RawConstant.unused) := by
  rw [ClassFile.read_from] at h
  rcases h0 : read_u32 bytes with _ | ⟨magic, r1⟩
  · rw [h0] at h; simp at h
  rw [h0] at h
  simp only [] at h
  by_cases hm : magic = 0xcafebabe
  case neg => rw [if_pos hm] at h; simp at h
  rw [if_neg (not_not_intro hm)] at h
  rcases h1 : read_u16 r1 with _ | ⟨minor, r2⟩
  · rw [h1] at h; simp at h
  rw [h1] at h
  simp only [] at h
  rcases h2 : read_u16 r2 with _ | ⟨major, r3⟩
  · rw [h2] at h; simp at h
  rw [h2] at h
  simp only [] at h
  rcases h3 : read_u16 r3 with _ | ⟨cpc, r4⟩
  · rw [h3] at h; simp at h
  rw [h3] at h
  simp only [] at h
  by_cases hc0 : cpc = 0
  case pos => rw [if_pos hc0] at h; simp at h
  rw [if_neg hc0] at h
  rcases h5 : readConstants (cpc - 1) r4 with _ | ⟨pool, r5⟩
  · rw [h5] at h; simp at h
  rw [h5] at h
  simp only [] at h
  rcases h6 : read_u16 r5 with _ | ⟨af, r6⟩
  · rw [h6] at h; simp at h
  rw [h6] at h
  simp only [] at h
  rcases h7 : read_u16 r6 with _ | ⟨tc, r7⟩
  · rw [h7] at h; simp at h
  rw [h7] at h
  simp only [] at h
  rcases h8 : read_u16 r7 with _ | ⟨sc, r8⟩
  · rw [h8] at h; simp at h
  rw [h8] at h
  simp only [] at h
  rcases h9 : read_u16 r8 with _ | ⟨ifc, r9⟩
  · rw [h9] at h; simp at h
  rw [h9] at h
  simp only [] at h
  rcases h10 : readList ifc read_u16 r9 with _ | ⟨ifs, r10⟩
  · rw [h10] at h; simp at h
  rw [h10] at h
  simp only [] at h
  rcases h11 : read_u16 r10 with _ | ⟨fc, r11⟩
  · rw [h11] at h; simp at h
  rw [h11] at h
  simp only [] at h
  rcases h12 : readList fc RawField.read_from r11 with _ | ⟨fs, r12⟩
  · rw [h12] at h; simp at h
  rw [h12] at h
  simp only [] at h
  rcases h13 : read_u16 r12 with _ | ⟨mc, r13⟩
  · rw [h13] at h; simp at h
  rw [h13] at h
  simp only [] at h
  rcases h14 : readList mc RawMethod.read_from r13 with _ | ⟨ms, r14⟩
  · rw [h14] at h; simp at h
  rw [h14] at h
  simp only [] at h
  rcases h15 : read_u16 r14 with _ | ⟨ac, r15⟩
  · rw [h15] at h; simp at h
  rw [h15] at h
  simp only [] at h
  rcases h16 : readList ac RawAttribute.read_from r15 with _ | ⟨ats, r16⟩
  · rw [h16] at h; simp at h
  rw [h16] at h
  simp only [] at h
  by_cases hre : r16 = []
  case neg => rw [if_neg hre] at h; simp at h
  rw [if_pos hre] at h
  simp only [Option.some.injEq] at h
  subst h
  have e3 : r3 = bytes.drop 8 := by
    rw [read_u16_rest _ _ _ h2, read_u16_rest _ _ _ h1, read_u32_rest _ _ _ h0,
      List.drop_drop, List.drop_drop]
  refine ⟨cpc, r4, ?_, by omega, ?_, ?_⟩
  · rw [← e3]; exact h3
  · rcases readConstants_length _ _ _ _ h5 with hL | ⟨hL, hE⟩
    · left; simpa using hL
    · right
      refine ⟨by simp [hL]; omega, by simpa using hE⟩
  · intro j c hj hw
    exact readConstants_unused _ _ _ _ h5 j c (by simpa using hj) hw

/-- C3 (counterexample): on `cexPoolBytes` — a complete class file whose
`constant_pool_count` is 2 and whose single decoded constant is a Long —
`ClassFile::read_from` succeeds with a pool of 2 slots (`[Long, Unused]`),
not the `constant_pool_count - 1 = 1` slots the claim requires: the
sentinel pushed after the Long overflows the nominal count. -/
theorem constant_pool_count_cex :
    ClassFile.read_from cexPoolBytes = some cexPoolClass ∧
    read_u16 (cexPoolBytes.drop 8) = some (2, cexPoolBytes.drop 10) ∧
    cexPoolClass.constant_pool.length = 2 ∧ 2 ≠ 2 - 1 :=
  ⟨by decide, by decide, by decide, by decide⟩

/-- Witness for `constant_pool_slots`: `witPoolBytes` (count 4, a Long in
slots 1–2 followed by an Integer in slot 3) decodes with a pool of
`4 - 1 = 3` slots satisfying the Unused-successor invariant. -/
theorem constant_pool_slots_witness :
    ClassFile.read_from witPoolBytes = some witPoolClass ∧
    (∃ count rest, read_u16 (witPoolBytes.drop 8) = some (count, rest) ∧
      1 ≤ count ∧
      (witPoolClass.constant_pool.length = count - 1 ∨
        (witPoolClass.constant_pool.length = count ∧
          endsWidePair witPoolClass.constant_pool)) ∧
      (∀ j c, witPoolClass.constant_pool[j]? = some c → c.isWide = true →
        witPoolClass.constant_pool[j+1]? = some RawConstant.unused)) :=
  ⟨by decide, constant_pool_slots witPoolBytes witPoolClass (by decide)⟩

end Jvm
